import Mathlib

/-
Verification development for the munnel reverse-tunnel TCP relay.

The Rust sources are embedded shallowly:
  * byte streams are modelled as `List Char` (one `Char` per byte; the
    protocol is ASCII line-oriented);
  * a sequence of parsed control-protocol lines is a `List String`
    (each entry is a line's content after the trailing newline is removed,
    end of the list standing for end-of-stream);
  * the broker's hash maps are association lists, insertion replacing the
    value at an existing key and appending otherwise;
  * the stateful event loops become explicit step functions over the lines
    they read and the messages they receive.
-/

namespace Munnel

/- Verb and limit constants, from src/constants.rs. -/

def CMD_NEW_AGENT : String := "NEW_AGENT"

def CMD_PSK : String := "PRE_SHARED_KEY"

def CMD_CONNECT : String := "CONNECT"

def CMD_OK : String := "OK"

def CMD_KEEP_ALIVE : String := "KEEP_ALIVE"

def CMD_DEREGISTER : String := "DEREGISTER"

def CMD_SHUTDOWN : String := "SHUTDOWN"

def CMD_NEW_SERVICE : String := "NEW_SERVICE"

def CMD_CANCEL_CONNECTION : String := "CANCEL_CONNECTION"

def MAX_AGENT_CONNECTIONS : Nat := 1000

/-- From src/utils.rs `rm_newline`: strip one trailing newline, if present.
Modelled on char lists (the source operates on a `String`). -/
def rm_newline (l : List Char) : List Char :=
  if l.getLast? = some '\n' then l.dropLast else l

/-- From src/utils.rs `tokio_write_line`: the bytes written for one line are
the line's bytes followed by a single newline. -/
def tokio_write_line (line : List Char) : List Char :=
  line ++ ['\n']

/-- From src/utils.rs `tokio_read_line_main`: read the stream byte by byte,
appending to the line buffer, until a newline is consumed (it is included),
the stream ends, or `max_bytes` bytes have been consumed.  Returns the
consumed line bytes and the untouched remainder of the stream. -/
def tokio_read_line_main (stream : List Char) (max_bytes : Nat) : List Char × List Char :=
  match max_bytes, stream with
  | 0, s => ([], s)
  | _ + 1, [] => ([], [])
  | n + 1, c :: rest =>
      if c = '\n' then ([c], rest)
      else
        let r := tokio_read_line_main rest n
        (c :: r.1, r.2)

/-- From src/utils.rs `tokio_read_line`: `tokio_read_line_main` with the
default cap of 4096 bytes. -/
def tokio_read_line (stream : List Char) : List Char × List Char :=
  tokio_read_line_main stream 4096

/-- From src/agent.rs `run_agent`, keep-alive arm of the inner select loop:
the bytes passed to `write_all` on a keep-alive tick are exactly
`CMD_KEEP_ALIVE.as_bytes()` — the verb alone, with no newline appended
(`tokio_write_line` is not used on this path). -/
def run_agent_keep_alive_write : List Char :=
  CMD_KEEP_ALIVE.data

/- Service configurations, from src/configs.rs. -/

/-- From src/configs.rs `ServerConfig`. -/
structure ServerConfig where
  service_name : String
  agent_group_name : String
  server_bind_endpoint : String
  agent_service_endpoint : String
deriving DecidableEq, Repr

/-- `ServerConfigs` is a map from config key to config; modelled as an
association list (`HashMap` iteration order is not relied upon by any
theorem below). -/
abbrev ServerConfigs := List (String × ServerConfig)

/-- From src/configs.rs `get_server_config_key`: the identity key of a
service configuration is the service name and the group name joined
with a single `:`. -/
def get_server_config_key (service_name group_name : String) : String :=
  service_name ++ ":" ++ group_name

/-- From src/configs.rs `add_server_config`: if the key is already present
the new configuration is discarded (with a warning), otherwise it is
inserted under its key. -/
def add_server_config (sconfig : ServerConfig) (sconfigs : ServerConfigs) : ServerConfigs :=
  let key := get_server_config_key sconfig.service_name sconfig.agent_group_name
  if (sconfigs.lookup key).isSome then sconfigs else sconfigs ++ [(key, sconfig)]

/- The broker's agent registry, from src/server.rs. -/

/-- `agent_control_threads_by_group_name`: group name → bucket of registered
agent ids.  Buckets are `HashMap`s keyed by agent id; modelled as lists of
ids (the registration payload is irrelevant to the claims below). -/
abbrev AgentRegistry := List (String × List String)

/-- `HashMap::insert` on a bucket keyed by agent id: a fresh id is appended,
an existing id keeps its single slot (its value is replaced). -/
def bucket_insert (id : String) (bucket : List String) : List String :=
  if id ∈ bucket then bucket else bucket ++ [id]

/-- Update the value stored at key `k` of an association list, leaving the
list unchanged when `k` is absent. -/
def alist_update (k : String) (f : List String → List String) :
    AgentRegistry → AgentRegistry
  | [] => []
  | gb :: rest =>
      if gb.1 = k then (gb.1, f gb.2) :: rest else gb :: alist_update k f rest

/-- From src/server.rs `run_server`, `CMD_NEW_AGENT` arm (lines 108–126):
insert an empty bucket for the group if none exists, then insert the agent
id into the group's bucket. -/
def register_agent (agents : AgentRegistry) (group_name id : String) : AgentRegistry :=
  if agents.any (fun gb => gb.1 == group_name) then
    alist_update group_name (bucket_insert id) agents
  else
    agents ++ [(group_name, [id])]

/-- From src/server.rs `run_server`, `CMD_DEREGISTER` arm (lines 166–184):
for every group bucket containing the agent id, remove the id, and drop the
bucket entirely if it became empty. -/
def deregister_agent (agents : AgentRegistry) (id : String) : AgentRegistry :=
  agents.filterMap (fun gb =>
    if id ∈ gb.2 then
      let b := gb.2.erase id
      if b = [] then none else some (gb.1, b)
    else some gb)

/-- The two broker events that mutate the agent registry. -/
inductive RegistryEvent where
  | new_agent (group_name id : String)
  | deregister (id : String)
deriving DecidableEq, Repr

def registry_step (agents : AgentRegistry) : RegistryEvent → AgentRegistry
  | .new_agent group_name id => register_agent agents group_name id
  | .deregister id => deregister_agent agents id

/-- The registry reached from the empty initial registry by a sequence of
broker events. -/
def run_registry (events : List RegistryEvent) : AgentRegistry :=
  events.foldl registry_step []

/-- Each agent id occurs in at most one group bucket (bucket pairs holding a
common id agree on the group name). -/
def agent_in_one_bucket (agents : AgentRegistry) : Prop :=
  ∀ gb1 ∈ agents, ∀ gb2 ∈ agents, ∀ a ∈ gb1.2, a ∈ gb2.2 → gb1.1 = gb2.1

/-- No group bucket is empty. -/
def no_empty_bucket (agents : AgentRegistry) : Prop :=
  ∀ gb ∈ agents, gb.2 ≠ []

/-- The registry invariant claimed for all reachable broker states. -/
def registry_invariant (agents : AgentRegistry) : Prop :=
  agent_in_one_bucket agents ∧ no_empty_bucket agents

/- The agent-session read loop, from src/server.rs `agent_control_thread`. -/

/-- The messages an agent-session sends to the broker (`AppCommand`
restricted to the verb tag and the fields that verb carries; the stream and
address payloads are omitted). -/
inductive BrokerMsg where
  | new_agent (id group_name : String)
  | connect (id connection_id : String)
  | cancel_connection (id connection_id : String)
deriving DecidableEq, Repr

/-- From src/server.rs `agent_control_thread`, authenticated dispatch
(lines 328–430), as a function of the lines read from the stream (end of
list = stream closed).  Returns the lines written back on the stream and the
messages sent to the broker.  `NEW_AGENT` replies `OK`, registers, and
continues; `CONNECT` and `CANCEL_CONNECTION` message the broker and end the
loop; any other verb, or a stream close mid-verb, ends the loop with
nothing written.  (Keep-alive writes are timer-driven and happen only after
a `NEW_AGENT`, hence only after authentication.) -/
def run_session_auth (id : String) (lines : List String) : List String × List BrokerMsg :=
  match lines with
  | [] => ([], [])
  | cmd :: rest =>
      if cmd = CMD_NEW_AGENT then
        match rest with
        | [] => ([], [])
        | group_name :: rest' =>
            let r := run_session_auth id rest'
            (CMD_OK :: r.1, BrokerMsg.new_agent id group_name :: r.2)
      else if cmd = CMD_CONNECT then
        match rest with
        | [] => ([], [])
        | connection_id :: _ => ([], [BrokerMsg.connect id connection_id])
      else if cmd = CMD_CANCEL_CONNECTION then
        match rest with
        | [] => ([], [])
        | connection_id :: _ => ([], [BrokerMsg.cancel_connection id connection_id])
      else ([], [])

/-- From src/server.rs `agent_control_thread`, unauthenticated dispatch
(lines 431–465): the first verb must be `PRE_SHARED_KEY` and the following
line must equal the configured key; any other first verb, or a wrong key,
closes the stream with nothing written and no message sent.  On success the
session continues authenticated. -/
def run_session (id psk : String) (lines : List String) : List String × List BrokerMsg :=
  match lines with
  | [] => ([], [])
  | cmd :: rest =>
      if cmd = CMD_PSK then
        match rest with
        | [] => ([], [])
        | key :: rest' => if key = psk then run_session_auth id rest' else ([], [])
      else ([], [])

/- The broker's service and pending-connection state, from src/server.rs. -/

/-- The per-service entry of `service_control_threads_by_service_name`
(the broker-relevant fields of its `AppCommand`). -/
structure ServiceHandle where
  agent_dest_address : String
  counter : Nat
deriving DecidableEq, Repr

/-- From src/server.rs `reconcile_agents_and_services` (line 604): a freshly
registered service handle starts with counter 1. -/
def reconcile_new_service_handle (agent_dest_address : String) : ServiceHandle :=
  { agent_dest_address := agent_dest_address, counter := 1 }

/-- The data fields of a `pending_connections_by_id` entry (the client
stream and client address it also carries are not representable here). -/
structure PendingConn where
  connection_id : String
  service_name : String
  agent_dest_address : String
deriving DecidableEq, Repr

/-- The broker state the claims below range over. -/
structure BrokerState where
  agents : AgentRegistry
  services : List (String × ServiceHandle)
  pending : List (String × PendingConn)
deriving DecidableEq, Repr

/-- `HashMap::insert`: replace the value at an existing key, append
otherwise. -/
def alist_insert {β : Type} (k : String) (v : β) (l : List (String × β)) :
    List (String × β) :=
  if (l.lookup k).isSome then
    l.map (fun kv => if kv.1 == k then (k, v) else kv)
  else l ++ [(k, v)]

/-- From src/server.rs `get_service_group_names` (lines 642–652): for every
configuration whose service name matches, push the configuration's SERVICE
NAME (sic — not its `agent_group_name`), then push the empty group name. -/
def get_service_group_names (service_name : String) (services : ServerConfigs) :
    List String :=
  (services.filterMap (fun kv =>
    if kv.2.service_name = service_name then some kv.2.service_name else none))
    ++ [""]

/-- From src/server.rs `run_server`, service `CMD_CONNECT` arm
(lines 216–226): the candidate agents are the concatenation of the group
buckets named by `get_service_group_names`. -/
def service_supporting_agents (service_name : String) (configs : ServerConfigs)
    (agents : AgentRegistry) : List String :=
  (get_service_group_names service_name configs).foldl
    (fun acc group_name => acc ++ ((agents.lookup group_name).getD [])) []

/-- From src/server.rs `reconcile_agents_and_services` (lines 588–595): a
service is supported iff some non-empty bucket's group is the empty string
or equals the service's CONFIGURED group name. -/
def can_support (group_name : String) (agents : AgentRegistry) : Bool :=
  agents.any (fun gb => gb.2.length > 0 && (gb.1 == "" || gb.1 == group_name))

/-- Store an updated round-robin counter for a service
(src/server.rs line 234). -/
def services_set_counter (service_name : String) (counter : Nat)
    (services : List (String × ServiceHandle)) : List (String × ServiceHandle) :=
  services.map (fun kv =>
    if kv.1 == service_name then (kv.1, { kv.2 with counter := counter }) else kv)

/-- From src/server.rs `run_server`, service `CMD_CONNECT` arm
(lines 206–253): if the service is registered, insert a fresh
`PendingConn` under the given connection id FIRST, then build the candidate
set; if it is non-empty, choose the candidate at index
`counter.rem_euclid(len)`, store counter+1, and order that agent to
connect (the returned chosen agent id); if it is empty, only log — the
pending entry just inserted is left in place. -/
def handle_service_connect (configs : ServerConfigs) (connection_id service_name : String)
    (st : BrokerState) : BrokerState × Option String :=
  match st.services.lookup service_name with
  | none => (st, none)
  | some sct =>
      let pending' := alist_insert connection_id
        { connection_id := connection_id, service_name := service_name,
          agent_dest_address := sct.agent_dest_address } st.pending
      let supporting := service_supporting_agents service_name configs st.agents
      if supporting.length > 0 then
        ({ st with
            pending := pending',
            services := services_set_counter service_name (sct.counter + 1) st.services },
          supporting.get? (sct.counter % supporting.length))
      else
        ({ st with pending := pending' }, none)

/-- Iterate `handle_service_connect` over a list of fresh connection ids,
collecting the chosen agent of each step. -/
def run_service_connects (configs : ServerConfigs) (service_name : String)
    (connection_ids : List String) (st : BrokerState) : BrokerState × List (Option String) :=
  match connection_ids with
  | [] => (st, [])
  | c :: cs =>
      let r := handle_service_connect configs c service_name st
      let rest := run_service_connects configs service_name cs r.1
      (rest.1, r.2 :: rest.2)

/-- From src/server.rs `run_server`, agent `CMD_CANCEL_CONNECTION` arm
(lines 159–165): remove the pending entry if present. -/
def handle_cancel_connection (connection_id : String)
    (pending : List (String × PendingConn)) : List (String × PendingConn) :=
  if (pending.lookup connection_id).isSome then
    pending.eraseP (fun kv => kv.1 == connection_id)
  else pending

/-- From src/server.rs `run_server`, agent `CMD_CONNECT` arm
(lines 127–158): if the connection id is pending, remove the entry (and
splice the two streams); otherwise log and discard. -/
def handle_agent_connect_msg (connection_id : String)
    (pending : List (String × PendingConn)) : List (String × PendingConn) :=
  if (pending.lookup connection_id).isSome then
    pending.eraseP (fun kv => kv.1 == connection_id)
  else pending

/-- The broker's handling of the messages one agent-session sends it
(src/server.rs lines 102–188, the arms reachable from a session; the
reconciliation run on `NEW_AGENT` touches only the services map of states
used below). -/
def apply_session_msgs (st : BrokerState) : List BrokerMsg → BrokerState
  | [] => st
  | msg :: rest =>
      let st' : BrokerState :=
        match msg with
        | .new_agent id group_name =>
            { st with agents := register_agent st.agents group_name id }
        | .connect _ connection_id =>
            { st with pending := handle_agent_connect_msg connection_id st.pending }
        | .cancel_connection _ connection_id =>
            { st with pending := handle_cancel_connection connection_id st.pending }
      apply_session_msgs st' rest

/-- From src/agent.rs `send_cancel_connection` (lines 193–198): the lines
written on the fresh stream are the `CANCEL_CONNECTION` verb and the
connection id — no `PRE_SHARED_KEY` precedes them. -/
def send_cancel_connection_lines (connection_id : String) : List String :=
  [CMD_CANCEL_CONNECTION, connection_id]

/-- New-connection accept on the agent control endpoint
(src/server.rs lines 78–99): close the stream or spawn a session. -/
inductive AcceptAction where
  | close
  | spawn
deriving DecidableEq, Repr

/-- From src/server.rs `get_connected_agent_count` (lines 654–660): the sum
of the bucket sizes of the agent registry — registered agents only. -/
def get_connected_agent_count (agents : AgentRegistry) : Nat :=
  agents.foldl (fun acc gb => acc + gb.2.length) 0

/-- From src/server.rs `run_server` (lines 78–99): on accept, close the new
stream when `get_connected_agent_count ≥ MAX_AGENT_CONNECTIONS`, otherwise
spawn an agent-session task.  The decision reads only the registry. -/
def handle_agent_accept (agents : AgentRegistry) : AcceptAction :=
  if get_connected_agent_count agents ≥ MAX_AGENT_CONNECTIONS then
    AcceptAction.close
  else AcceptAction.spawn

/-- Following the claim's words, for comparison with `handle_agent_accept`:
close when the number of registered agents plus in-flight unauthenticated
sessions is at least 1000. -/
def claimed_accept_decision (registered_count inflight_unauthenticated : Nat) :
    AcceptAction :=
  if registered_count + inflight_unauthenticated ≥ MAX_AGENT_CONNECTIONS then
    AcceptAction.close
  else AcceptAction.spawn

instance (agents : AgentRegistry) : Decidable (agent_in_one_bucket agents) := by
  unfold agent_in_one_bucket; infer_instance

instance (agents : AgentRegistry) : Decidable (no_empty_bucket agents) := by
  unfold no_empty_bucket; infer_instance

instance (agents : AgentRegistry) : Decidable (registry_invariant agents) := by
  unfold registry_invariant; infer_instance

/- Concrete fixtures used by the claim theorems and witnesses. -/

/-- A single configuration: service "a" in agent group "west". -/
def demo_west_configs : ServerConfigs :=
  add_server_config (ServerConfig.mk "a" "west" "0.0.0.0:80" "10.0.0.1:80") []

/-- One agent, "x", registered in group "west". -/
def demo_west_agents : AgentRegistry := [("west", ["x"])]

/-- A single configuration: service "web" in agent group "g1". -/
def demo_web_configs : ServerConfigs :=
  add_server_config (ServerConfig.mk "web" "g1" "0.0.0.0:18080" "127.0.0.1:9000") []

/-- Broker state with service "web" registered and no agents at all. -/
def demo_web_state : BrokerState :=
  BrokerState.mk [] [("web", reconcile_new_service_handle "127.0.0.1:9000")] []

/-- A single configuration: service "s" in the empty agent group. -/
def demo_rr_configs : ServerConfigs :=
  add_server_config (ServerConfig.mk "s" "" "0.0.0.0:1" "10.0.0.1:2") []

/-- Broker state with service "s" just reconciled (counter 1) and three
agents "A", "B", "C" registered in the empty group. -/
def demo_rr_state : BrokerState :=
  BrokerState.mk [("", ["A", "B", "C"])]
    [("s", reconcile_new_service_handle "10.0.0.1:2")] []

/- Reading a written line consumes exactly the line plus its terminator. -/
theorem tokio_read_line_main_exact (line : List Char) :
    ∀ (fuel : Nat) (rest : List Char), '\n' ∉ line → line.length < fuel →
      tokio_read_line_main (line ++ '\n' :: rest) fuel = (line ++ ['\n'], rest) := by
  induction line with
  | nil =>
      intro fuel rest _ hlen
      match fuel, hlen with
      | n + 1, _ => simp [tokio_read_line_main]
  | cons c cs ih =>
      intro fuel rest hnl hlen
      match fuel, hlen with
      | n + 1, hlen =>
        have hc : ¬ (c = '\n') := by
          intro h; exact hnl (by simp [h])
        have hcs : '\n' ∉ cs := by
          intro h; exact hnl (List.mem_cons_of_mem _ h)
        have hlen' : cs.length < n := by
          simpa [List.length_cons, Nat.succ_lt_succ_iff] using hlen
        simp [tokio_read_line_main, hc, ih n rest hcs hlen']

theorem rm_newline_append (line : List Char) :
    rm_newline (line ++ ['\n']) = line := by
  simp [rm_newline]

/-- C9: for every line without a newline byte of length at most 4095, writing
it with `tokio_write_line` and reading it back with `tokio_read_line`
(default cap 4096) on a lossless channel, then stripping the trailing
newline with `rm_newline`, yields exactly the original line; the rest of the
stream is left untouched. -/
theorem write_line_read_line_roundtrip (line rest : List Char)
    (hnl : '\n' ∉ line) (hlen : line.length ≤ 4095) :
    rm_newline (tokio_read_line (tokio_write_line line ++ rest)).1 = line ∧
      (tokio_read_line (tokio_write_line line ++ rest)).2 = rest := by
  have hfuel : line.length < 4096 := Nat.lt_succ_of_le hlen
  have hread :
      tokio_read_line_main (line ++ '\n' :: rest) 4096 = (line ++ ['\n'], rest) :=
    tokio_read_line_main_exact line 4096 rest hnl hfuel
  have hstream : tokio_write_line line ++ rest = line ++ '\n' :: rest := by
    simp [tokio_write_line]
  constructor
  · rw [tokio_read_line, hstream, hread]
    exact rm_newline_append line
  · rw [tokio_read_line, hstream, hread]

theorem write_line_read_line_roundtrip_witness :
    ('\n' ∉ "hello".data ∧ "hello".data.length ≤ 4095) ∧
      rm_newline (tokio_read_line (tokio_write_line "hello".data ++ "rest".data)).1
        = "hello".data := by
  refine ⟨⟨by decide, by decide⟩, ?_⟩
  exact (write_line_read_line_roundtrip "hello".data "rest".data (by decide) (by decide)).1

/-- C1: on a keep-alive tick of the agent's inner loop the bytes written to
the server are the verb alone with NO trailing newline: they differ from
`tokio_write_line CMD_KEEP_ALIVE.data` (the claimed `KEEP_ALIVE\n`), they
contain no newline byte at all, and the server's line reader consuming them
does not obtain a newline-terminated line — so it does not parse one
`KEEP_ALIVE` line per tick. -/
theorem agent_keep_alive_tick_missing_newline :
    run_agent_keep_alive_write = CMD_KEEP_ALIVE.data ∧
      run_agent_keep_alive_write ≠ tokio_write_line CMD_KEEP_ALIVE.data ∧
      '\n' ∉ run_agent_keep_alive_write ∧
      (tokio_read_line run_agent_keep_alive_write).1.getLast? ≠ some '\n' := by
  refine ⟨rfl, by decide, by decide, ?_⟩
  decide

/-- C5: the agent-session processes no verb before authentication: whenever
the session wrote any line back (in particular `OK`) or sent any message to
the broker, the stream necessarily began with `PRE_SHARED_KEY` followed by a
line equal to the configured key, and everything else was handled by the
authenticated dispatch on the remaining lines.  Contrapositively, a first
verb other than `PRE_SHARED_KEY`, or a key line differing from the
configured key, closes the stream with nothing written and no message
sent. -/
theorem session_requires_authentication (id psk : String) (lines : List String)
    (h : run_session id psk lines ≠ ([], [])) :
    ∃ rest, lines = CMD_PSK :: psk :: rest ∧
      run_session id psk lines = run_session_auth id rest := by
  cases lines with
  | nil => exact absurd rfl h
  | cons cmd rest =>
      by_cases hc : cmd = CMD_PSK
      · subst hc
        cases rest with
        | nil => exact absurd (by simp [run_session]) h
        | cons key rest' =>
            by_cases hk : key = psk
            · subst hk
              exact ⟨rest', rfl, by simp [run_session]⟩
            · exact absurd (by simp [run_session, hk]) h
      · exact absurd (by simp [run_session, hc]) h

theorem session_requires_authentication_witness :
    run_session "a1" "k" [CMD_PSK, "k", CMD_NEW_AGENT, "west"] ≠ ([], []) ∧
      ∃ rest, [CMD_PSK, "k", CMD_NEW_AGENT, "west"] = CMD_PSK :: "k" :: rest ∧
        run_session "a1" "k" [CMD_PSK, "k", CMD_NEW_AGENT, "west"]
          = run_session_auth "a1" rest :=
  ⟨by decide, session_requires_authentication "a1" "k" _ (by decide)⟩

/-- C3: the fresh cancellation stream the agent opens carries only the
`CANCEL_CONNECTION` verb and the connection id — no `PRE_SHARED_KEY`
precedes them — so the server session closes the stream without sending any
message towards the broker, and the broker's state, its pending-connection
map included, is unchanged: the entry for the connection id is NOT
removed. -/
theorem cancel_connection_is_dropped (id psk connection_id : String) (st : BrokerState) :
    run_session id psk (send_cancel_connection_lines connection_id) = ([], []) ∧
      apply_session_msgs st
        (run_session id psk (send_cancel_connection_lines connection_id)).2 = st := by
  have hne : ¬ (CMD_CANCEL_CONNECTION = CMD_PSK) := by decide
  refine ⟨by simp [send_cancel_connection_lines, run_session, hne], ?_⟩
  simp [send_cancel_connection_lines, run_session, hne, apply_session_msgs]

/-- C10: the configuration identity key joins service name and group name
with a single `:`, so the distinct identity pairs `("a:b", "c")` and
`("a", "b:c")` collide, and the second configuration added under the
colliding key is discarded by `add_server_config`. -/
theorem config_key_not_injective :
    get_server_config_key "a:b" "c" = get_server_config_key "a" "b:c" ∧
      (("a:b", "c") ≠ (("a", "b:c") : String × String)) ∧
      add_server_config (ServerConfig.mk "a" "b:c" "e3" "e4")
          (add_server_config (ServerConfig.mk "a:b" "c" "e1" "e2") [])
        = add_server_config (ServerConfig.mk "a:b" "c" "e1" "e2") [] := by
  decide

/-- C2: refuted on the code — for service "a" configured with agent group
"west", the candidate groups computed by `get_service_group_names` are the
service's NAME and the empty string, not its configured group; hence the
agent "x" registered in group "west" is no candidate and the candidate set
is empty, even though `can_support` (the reconciler's rule) deems that very
agent a supporter of the service. -/
theorem candidate_set_uses_service_name :
    get_service_group_names "a" demo_west_configs = ["a", ""] ∧
      "west" ∉ get_service_group_names "a" demo_west_configs ∧
      can_support "west" demo_west_agents = true ∧
      service_supporting_agents "a" demo_west_configs demo_west_agents = [] := by
  decide

/-- C4: refuted on the code — with service "web" registered and an empty
candidate set, the broker chooses no agent, yet the `PendingConn` entry it
inserted before computing the candidate set remains in the pending map
under the fresh connection id (the claim says no entry may remain and the
client stream it carries be dropped). -/
theorem empty_candidate_set_keeps_pending_entry :
    service_supporting_agents "web" demo_web_configs demo_web_state.agents = [] ∧
      (handle_service_connect demo_web_configs "cid1" "web" demo_web_state).2 = none ∧
      ((handle_service_connect demo_web_configs "cid1" "web" demo_web_state).1.pending.lookup
          "cid1").isSome = true := by
  decide

/-- C6 counterexample: with zero registered agents and 1000 in-flight
unauthenticated sessions the claim demands the new stream be closed, but
the code's accept decision reads only the agent registry and spawns a
session. -/
theorem accept_capacity_counterexample :
    handle_agent_accept [] = AcceptAction.spawn ∧
      claimed_accept_decision (get_connected_agent_count []) 1000 = AcceptAction.close := by
  decide

/-- C6 (amended): the accept decision counts registered agents only —
in-flight unauthenticated sessions are not counted: the new stream is
closed exactly when the sum of the registry's bucket sizes is at least
`MAX_AGENT_CONNECTIONS` (1000), and a session is spawned exactly when it is
below; in particular a registry already holding 1000 agents forces a
close. -/
theorem accept_capacity_counts_registered_only (agents : AgentRegistry) :
    (handle_agent_accept agents = AcceptAction.close ↔
        get_connected_agent_count agents ≥ MAX_AGENT_CONNECTIONS) ∧
      (handle_agent_accept agents = AcceptAction.spawn ↔
        get_connected_agent_count agents < MAX_AGENT_CONNECTIONS) ∧
      handle_agent_accept [("", (List.range MAX_AGENT_CONNECTIONS).map toString)]
        = AcceptAction.close := by
  have hcount : get_connected_agent_count
      [("", (List.range MAX_AGENT_CONNECTIONS).map toString)] = MAX_AGENT_CONNECTIONS := by
    simp [get_connected_agent_count]
  refine ⟨?_, ?_, ?_⟩
  · by_cases h : get_connected_agent_count agents ≥ MAX_AGENT_CONNECTIONS
    · simp [handle_agent_accept, h]
    · simp [handle_agent_accept, h]
  · by_cases h : get_connected_agent_count agents ≥ MAX_AGENT_CONNECTIONS
    · simp [handle_agent_accept, h, Nat.not_lt_of_le h]
    · simp [handle_agent_accept, h, Nat.lt_of_not_le h]
  · simp [handle_agent_accept, hcount]

/-- C8 counterexample: a single authenticated session may send `NEW_AGENT`
twice with two different group names; the session loop forwards both
registrations under the session's one agent id, and the registry reached by
those two broker events holds that id in two distinct group buckets —
violating the claimed invariant on a reachable state. -/
theorem registry_invariant_counterexample :
    (run_session_auth "a" [CMD_NEW_AGENT, "g1", CMD_NEW_AGENT, "g2"]).2
        = [BrokerMsg.new_agent "a" "g1", BrokerMsg.new_agent "a" "g2"] ∧
      ¬ registry_invariant
        (run_registry [RegistryEvent.new_agent "g1" "a", RegistryEvent.new_agent "g2" "a"]) := by
  decide

/- Helper lemmas about the registry operations. -/

theorem mem_bucket_insert {id a : String} {b : List String}
    (h : a ∈ bucket_insert id b) : a ∈ b ∨ a = id := by
  by_cases hid : id ∈ b
  · simp only [bucket_insert, if_pos hid] at h
    exact Or.inl h
  · simp only [bucket_insert, if_neg hid] at h
    rcases List.mem_append.mp h with h | h
    · exact Or.inl h
    · exact Or.inr (List.mem_singleton.mp h)

theorem bucket_insert_ne_nil (id : String) (b : List String) :
    bucket_insert id b ≠ [] := by
  by_cases hid : id ∈ b
  · simp only [bucket_insert, if_pos hid]
    exact List.ne_nil_of_mem hid
  · simp only [bucket_insert, if_neg hid]
    simp

theorem mem_alist_update {k : String} {f : List String → List String}
    {l : AgentRegistry} {gb' : String × List String}
    (h : gb' ∈ alist_update k f l) :
    gb' ∈ l ∨ ∃ gb, gb ∈ l ∧ gb.1 = k ∧ gb' = (gb.1, f gb.2) := by
  induction l with
  | nil => simp [alist_update] at h
  | cons gb0 rest ih =>
      by_cases hk : gb0.1 = k
      · simp only [alist_update, if_pos hk] at h
        rcases List.mem_cons.mp h with h | h
        · exact Or.inr ⟨gb0, List.mem_cons_self _ _, hk, h⟩
        · exact Or.inl (List.mem_cons_of_mem _ h)
      · simp only [alist_update, if_neg hk] at h
        rcases List.mem_cons.mp h with h | h
        · exact Or.inl (List.mem_cons.mpr (Or.inl h))
        · rcases ih h with h' | ⟨gb1, hm, hk1, he⟩
          · exact Or.inl (List.mem_cons_of_mem _ h')
          · exact Or.inr ⟨gb1, List.mem_cons_of_mem _ hm, hk1, he⟩

theorem mem_deregister_agent {agents : AgentRegistry} {id : String}
    {gb' : String × List String} (h : gb' ∈ deregister_agent agents id) :
    ∃ gb, gb ∈ agents ∧ gb'.1 = gb.1 ∧ (∀ a ∈ gb'.2, a ∈ gb.2) ∧
      (gb.2 ≠ [] → gb'.2 ≠ []) := by
  simp only [deregister_agent] at h
  rcases List.mem_filterMap.mp h with ⟨gb, hmem, hf⟩
  by_cases hid : id ∈ gb.2
  · by_cases hnil : gb.2.erase id = []
    · simp [hid, hnil] at hf
    · simp only [if_pos hid, if_neg hnil, Option.some.injEq] at hf
      refine ⟨gb, hmem, ?_, ?_, ?_⟩
      · rw [← hf]
      · intro a ha
        rw [← hf] at ha
        exact List.mem_of_mem_erase ha
      · intro _
        rw [← hf]
        exact hnil
  · simp only [if_neg hid, Option.some.injEq] at hf
    subst hf
    exact ⟨gb, hmem, rfl, fun a ha => ha, fun h => h⟩

/-- C8 (amended): the registry invariant — each registered agent id in
exactly one group bucket, no empty bucket — is preserved by the
`DEREGISTER` handler unconditionally, and by the `NEW_AGENT` handler
provided the inserted agent id is not already registered under a different
group (as holds when each session registers at most once, ids being fresh
per session). -/
theorem registry_handlers_preserve_invariant (agents : AgentRegistry)
    (hinv : registry_invariant agents) :
    (∀ id, registry_invariant (deregister_agent agents id)) ∧
      (∀ group_name id,
        (∀ gb ∈ agents, id ∈ gb.2 → gb.1 = group_name) →
          registry_invariant (register_agent agents group_name id)) := by
  obtain ⟨hone, hne⟩ := hinv
  constructor
  · intro id
    constructor
    · intro gb1 h1 gb2 h2 a ha1 ha2
      obtain ⟨g1, hm1, hf1, hs1, _⟩ := mem_deregister_agent h1
      obtain ⟨g2, hm2, hf2, hs2, _⟩ := mem_deregister_agent h2
      rw [hf1, hf2]
      exact hone g1 hm1 g2 hm2 a (hs1 a ha1) (hs2 a ha2)
    · intro gb h
      obtain ⟨g, hm, _, _, hnil⟩ := mem_deregister_agent h
      exact hnil (hne g hm)
  · intro group_name id hfresh
    unfold register_agent
    by_cases hk : agents.any (fun gb => gb.1 == group_name) = true
    · rw [if_pos hk]
      constructor
      · intro gb1 h1 gb2 h2 a ha1 ha2
        rcases mem_alist_update h1 with h1' | ⟨g1, hm1, hk1, he1⟩ <;>
          rcases mem_alist_update h2 with h2' | ⟨g2, hm2, hk2, he2⟩
        · exact hone gb1 h1' gb2 h2' a ha1 ha2
        · rw [he2] at ha2 ⊢
          rcases mem_bucket_insert ha2 with ha2' | rfl
          · exact hone gb1 h1' g2 hm2 a ha1 ha2'
          · rw [hfresh gb1 h1' ha1, hk2]
        · rw [he1] at ha1 ⊢
          rcases mem_bucket_insert ha1 with ha1' | rfl
          · exact hone g1 hm1 gb2 h2' a ha1' ha2
          · rw [hfresh gb2 h2' ha2, hk1]
        · rw [he1, he2]
          simp [hk1, hk2]
      · intro gb h
        rcases mem_alist_update h with h' | ⟨g, _, _, he⟩
        · exact hne gb h'
        · rw [he]
          exact bucket_insert_ne_nil id g.2
    · rw [if_neg hk]
      constructor
      · intro gb1 h1 gb2 h2 a ha1 ha2
        rcases List.mem_append.mp h1 with h1' | h1' <;>
          rcases List.mem_append.mp h2 with h2' | h2'
        · exact hone gb1 h1' gb2 h2' a ha1 ha2
        · have he2 : gb2 = (group_name, [id]) := List.mem_singleton.mp h2'
          rw [he2] at ha2 ⊢
          have : a = id := List.mem_singleton.mp ha2
          subst this
          exact hfresh gb1 h1' ha1
        · have he1 : gb1 = (group_name, [id]) := List.mem_singleton.mp h1'
          rw [he1] at ha1 ⊢
          have : a = id := List.mem_singleton.mp ha1
          subst this
          exact (hfresh gb2 h2' ha2).symm
        · rw [List.mem_singleton.mp h1', List.mem_singleton.mp h2']
      · intro gb h
        rcases List.mem_append.mp h with h' | h'
        · exact hne gb h'
        · rw [List.mem_singleton.mp h']
          simp

theorem registry_handlers_preserve_invariant_witness :
    registry_invariant ([("g", ["b"])] : AgentRegistry) ∧
      registry_invariant (deregister_agent [("g", ["b"])] "b") :=
  ⟨by decide, (registry_handlers_preserve_invariant [("g", ["b"])] (by decide)).1 "b"⟩

/- Helper lemma: updating a service's counter is observable through lookup. -/

theorem lookup_services_set_counter {service_name : String} {c : Nat}
    {services : List (String × ServiceHandle)} {sct : ServiceHandle}
    (h : services.lookup service_name = some sct) :
    (services_set_counter service_name c services).lookup service_name
      = some { sct with counter := c } := by
  induction services with
  | nil => simp [List.lookup] at h
  | cons kv rest ih =>
      obtain ⟨k, v⟩ := kv
      rw [show services_set_counter service_name c ((k, v) :: rest)
            = (if (k == service_name) = true then
                 (k, { agent_dest_address := v.agent_dest_address, counter := c })
               else (k, v)) :: services_set_counter service_name c rest from rfl]
      by_cases hk : service_name = k
      · subst hk
        have hv : v = sct := by
          simpa [List.lookup] using h
        subst hv
        rw [if_pos (beq_self_eq_true service_name)]
        simp [List.lookup]
      · have h1 : (service_name == k) = false := beq_eq_false_iff_ne.mpr hk
        have h2 : (k == service_name) = false :=
          beq_eq_false_iff_ne.mpr (fun he => hk he.symm)
        have h' : rest.lookup service_name = some sct := by
          simpa [List.lookup, h1] using h
        rw [if_neg (by simp [h2])]
        simp [List.lookup, h1, ih h']

/-- C7: for a registered service whose candidate set is non-empty, the
broker chooses the candidate at index `counter % N` (with `N` the candidate
count) and stores `counter + 1` back into the service handle; and since a
freshly reconciled service starts at counter 1, five sequential connections
over the fixed candidates `["A", "B", "C"]` are dispatched to
`B, C, A, B, C` — index sequence 1, 2, 0, 1, 2. -/
theorem round_robin_selection :
    (∀ (configs : ServerConfigs) (connection_id service_name : String)
        (st : BrokerState) (sct : ServiceHandle),
        st.services.lookup service_name = some sct →
        0 < (service_supporting_agents service_name configs st.agents).length →
          (handle_service_connect configs connection_id service_name st).2
              = (service_supporting_agents service_name configs st.agents).get?
                  (sct.counter %
                    (service_supporting_agents service_name configs st.agents).length) ∧
            (handle_service_connect configs connection_id service_name st).1.services.lookup
                service_name = some { sct with counter := sct.counter + 1 }) ∧
      reconcile_new_service_handle "10.0.0.1:2"
          = { agent_dest_address := "10.0.0.1:2", counter := 1 } ∧
      (run_service_connects demo_rr_configs "s" ["c1", "c2", "c3", "c4", "c5"]
          demo_rr_state).2
        = [some "B", some "C", some "A", some "B", some "C"] := by
  refine ⟨?_, rfl, by decide⟩
  intro configs connection_id service_name st sct hlook hlen
  unfold handle_service_connect
  rw [hlook]
  simp only [if_pos hlen]
  refine ⟨trivial, ?_⟩
  exact lookup_services_set_counter hlook

theorem round_robin_selection_witness :
    (handle_service_connect demo_rr_configs "c1" "s" demo_rr_state).2 = some "B" := by
  have h := round_robin_selection.1 demo_rr_configs "c1" "s" demo_rr_state
    (reconcile_new_service_handle "10.0.0.1:2") (by decide) (by decide)
  rw [h.1]
  decide

end Munnel
